import Mathlib

/-!
Verification of the clip synchronization engine of the clip-papy repository.

The JavaScript source is shallowly embedded: the SQLite clips table becomes a
list of rows keyed by id, network calls become explicit response oracles
(lists of responses consumed in order), and the process state (access token,
full-update mutex, store) is threaded explicitly.  Two source variants exist
in the repository (the current index.js and the older variant kept as an
unnamed file); both are embedded where claims reference them.
-/

namespace ClipPapy

/-- Row of the clips table (columns of CREATE TABLE clips in initDb). -/
structure Clip where
  id : String
  url : String
  title : String
  game_name : String
  broadcaster_name : String
  created_at : String
  view_count : Int
deriving DecidableEq

/-- Clip payload as returned by the upstream helix API: the stored columns
plus the extra fields used by the Discord notifier (creator_name, duration,
thumbnail_url).  The numeric duration is modelled as an integer number of
seconds. -/
structure ApiClip where
  id : String
  url : String
  title : String
  game_name : String
  broadcaster_name : String
  created_at : String
  view_count : Int
  creator_name : String
  duration : Int
  thumbnail_url : String
deriving DecidableEq

/-- The clips table, as the list of its rows in insertion order. -/
abbrev Store := List Clip

/-- List of the id column of every row. -/
def storeIds (s : Store) : List String := s.map Clip.id

/-- SELECT id FROM clips WHERE id = ? , as a boolean existence check. -/
def existsId (s : Store) (i : String) : Bool := s.any (fun r => r.id == i)

/-- INSERT OR IGNORE semantics of SQLite on the id primary key: insert when
the id is absent, no-op when present.  The boolean is result.changes > 0,
telling whether a new row was written. -/
def upsertIgnore (s : Store) (c : Clip) : Store × Bool :=
  if existsId s c.id then (s, false) else (s ++ [c], true)

/-- INSERT OR REPLACE semantics of SQLite on the id primary key: overwrite
the row with the same id when present, insert otherwise. -/
def upsertReplace (s : Store) (c : Clip) : Store :=
  if existsId s c.id then s.map (fun r => if r.id == c.id then c else r)
  else s ++ [c]

/-- Projection of an upstream clip payload onto the stored columns, exactly
the argument list of insertStmt.run in the source (c.game_name || "" is the
identity on total strings, with the empty string standing for an absent
game). -/
def toRow (c : ApiClip) : Clip :=
  { id := c.id, url := c.url, title := c.title, game_name := c.game_name
    broadcaster_name := c.broadcaster_name, created_at := c.created_at
    view_count := c.view_count }

/-- The per-page insert loop of updateClips: INSERT OR IGNORE each clip of
the page, counting the rows that were actually new. -/
def insertAll : Store → List ApiClip → Store × Nat
  | s, [] => (s, 0)
  | s, c :: rest =>
    let p := upsertIgnore s (toRow c)
    let q := insertAll p.1 rest
    (q.1, (if p.2 then 1 else 0) + q.2)

theorem existsId_iff (s : Store) (i : String) :
    existsId s i = true ↔ i ∈ storeIds s := by
  simp [existsId, storeIds, List.any_eq_true]

theorem storeIds_append (s t : Store) :
    storeIds (s ++ t) = storeIds s ++ storeIds t := by
  simp [storeIds]

theorem upsertIgnore_subset (s : Store) (c : Clip) :
    storeIds s ⊆ storeIds (upsertIgnore s c).1 := by
  unfold upsertIgnore
  split
  · exact fun i h => h
  · intro i h; rw [storeIds_append]; exact List.mem_append_left _ h

theorem upsertIgnore_of_absent (s : Store) (c : Clip)
    (h : existsId s c.id = false) :
    upsertIgnore s c = (s ++ [c], true) := by
  unfold upsertIgnore
  simp [h]

theorem upsertIgnore_of_present (s : Store) (c : Clip)
    (h : existsId s c.id = true) :
    upsertIgnore s c = (s, false) := by
  unfold upsertIgnore
  simp [h]

/-- C5: the second identical ignore-insert reports zero changed rows and is
a total no-op on the store; under the primary-key invariant (distinct ids)
the id ends up on exactly one row. -/
theorem upsertIgnore_idempotent (s : Store) (c : Clip)
    (h : (storeIds s).Nodup) :
    ((storeIds (upsertIgnore (upsertIgnore s c).1 c).1).count c.id = 1) ∧
    (upsertIgnore (upsertIgnore s c).1 c).2 = false ∧
    (upsertIgnore (upsertIgnore s c).1 c).1 = (upsertIgnore s c).1 := by
  have hmem1 : c.id ∈ storeIds (upsertIgnore s c).1 := by
    by_cases he : existsId s c.id = true
    · rw [upsertIgnore_of_present s c he]
      exact (existsId_iff s c.id).mp he
    · rw [upsertIgnore_of_absent s c (by simpa using he)]
      simp [storeIds_append, storeIds]
  have hnodup1 : (storeIds (upsertIgnore s c).1).Nodup := by
    by_cases he : existsId s c.id = true
    · rw [upsertIgnore_of_present s c he]; exact h
    · rw [upsertIgnore_of_absent s c (by simpa using he)]
      rw [storeIds_append]
      refine List.Nodup.append h (by simp [storeIds]) ?_
      intro i hi hj
      simp [storeIds] at hj
      subst hj
      exact absurd ((existsId_iff s c.id).mpr hi) (by simpa using he)
  have hex : existsId (upsertIgnore s c).1 c.id = true :=
    (existsId_iff _ c.id).mpr hmem1
  rw [upsertIgnore_of_present _ c hex]
  refine ⟨?_, rfl, rfl⟩
  exact List.count_eq_one_of_mem hnodup1 hmem1

/-- C5 witness: two ignore-inserts of a concrete clip into the empty store. -/
theorem upsertIgnore_idempotent_witness :
    ((storeIds (upsertIgnore (upsertIgnore []
        ⟨"clip1", "u", "t", "g", "b", "2024-01-01T00:00:00Z", 3⟩).1
        ⟨"clip1", "u", "t", "g", "b", "2024-01-01T00:00:00Z", 3⟩).1).count "clip1" = 1) ∧
    (upsertIgnore (upsertIgnore []
        ⟨"clip1", "u", "t", "g", "b", "2024-01-01T00:00:00Z", 3⟩).1
        ⟨"clip1", "u", "t", "g", "b", "2024-01-01T00:00:00Z", 3⟩).2 = false ∧
    (upsertIgnore (upsertIgnore []
        ⟨"clip1", "u", "t", "g", "b", "2024-01-01T00:00:00Z", 3⟩).1
        ⟨"clip1", "u", "t", "g", "b", "2024-01-01T00:00:00Z", 3⟩).1 =
      (upsertIgnore [] ⟨"clip1", "u", "t", "g", "b", "2024-01-01T00:00:00Z", 3⟩).1 :=
  upsertIgnore_idempotent []
    ⟨"clip1", "u", "t", "g", "b", "2024-01-01T00:00:00Z", 3⟩ (by decide)

/-- Errors thrown by the sync operations (the Error values of the source,
plus network for a transport failure / exhausted response oracle). -/
inductive SyncError where
  | auth
  | broadcasterNotFound
  | clipNotFound
  | network
deriving DecidableEq

/-- Process-wide mutable state of index.js: the clips store, the cached
bearer token (accessToken, null at boot) and the full-backfill mutex
(isUpdatingFull). -/
structure SyncState where
  store : Store
  accessToken : Option String
  isUpdatingFull : Bool
deriving DecidableEq

/-- State at process start: empty store, no token, mutex clear. -/
def initState : SyncState := { store := [], accessToken := none, isUpdatingFull := false }

/-- Response of one call of the token endpoint: some token on success, none
when the response carries no access_token (getAccessToken throws). -/
abbrev TokenResp := Option String

/-- Response of one authenticated request against the helix clips endpoint
without pagination: either HTTP 401, or a body whose data field is the given
clip list. -/
inductive ClipsResp where
  | unauthorized
  | result (data : List ApiClip)
deriving DecidableEq

/-- Single step of the token lifecycle before an authenticated request: keep
a cached token, otherwise consume one token-endpoint response (getAccessToken);
an empty oracle is a transport failure, a token-less response is the thrown
AuthError.  Returns the token, the remaining oracle and the updated request
count. -/
def ensureToken (cur : Option String) (tokens : List TokenResp) (reqs : Nat) :
    Except (SyncError × Nat) (String × List TokenResp × Nat) :=
  match cur with
  | some t => .ok (t, tokens, reqs)
  | none =>
    match tokens with
    | [] => .error (.network, reqs + 1)
    | none :: _ => .error (.auth, reqs + 1)
    | some t :: ts => .ok (t, ts, reqs + 1)

/-- Network oracle of one syncClipById call: token-endpoint responses and
clips-endpoint responses, consumed in order. -/
structure ClipEnv where
  tokens : List TokenResp
  resps : List ClipsResp
deriving DecidableEq

/-- Outcome of syncClipById: the result (the fetched payload on success),
the final process state, and the number of clips-endpoint requests that
received a response. -/
structure ResyncOut where
  result : Except SyncError ApiClip
  state : SyncState
  attempts : Nat

/-- Retry loop of syncClipById as the source writes it: fetch the clip; on
HTTP 401 refresh the token and re-invoke the whole operation (the cached
token is set on re-entry, so the re-invocation goes straight to the fetch);
on an empty data array throw ClipNotFound; otherwise INSERT OR REPLACE the
clip and return it. -/
def syncClipGo : List TokenResp → List ClipsResp → SyncState → Nat → ResyncOut
  | _, [], st, n => ⟨.error .network, st, n⟩
  | tokens, .unauthorized :: rs, st, n =>
    match tokens with
    | [] => ⟨.error .network, st, n + 1⟩
    | none :: _ => ⟨.error .auth, st, n + 1⟩
    | some t :: ts => syncClipGo ts rs { st with accessToken := some t } (n + 1)
  | _, .result [] :: _, st, n => ⟨.error .clipNotFound, st, n + 1⟩
  | _, .result (c :: _) :: _, st, n =>
    ⟨.ok c, { st with store := upsertReplace st.store (toRow c) }, n + 1⟩

/-- syncClipById of index.js (identical in both variants): ensure a token,
then run the fetch-retry loop. -/
def syncClipById (env : ClipEnv) (st : SyncState) : ResyncOut :=
  match ensureToken st.accessToken env.tokens 0 with
  | .error (e, _) => ⟨.error e, st, 0⟩
  | .ok (t, ts, _) => syncClipGo ts env.resps { st with accessToken := some t } 0

/-- Response of one paginated clips-endpoint request of updateClips: HTTP
401, or a body with a data array and an optional pagination cursor. -/
inductive PageResp where
  | unauthorized
  | page (data : List ApiClip) (cursor : Option String)
deriving DecidableEq

/-- Network oracle of one updateClips run. -/
structure UpdateEnv where
  tokens : List TokenResp
  broadcasterId : Option String
  pages : List PageResp
deriving DecidableEq

/-- Outcome of the pagination loop of updateClips: the result (inserted
count on success), the final store, the current token, and the cursor used
by each page request, in order. -/
structure FetchOut where
  result : Except SyncError Nat
  store : Store
  token : String
  requests : List (Option String)

/-- The do-while pagination loop of updateClips, one call per page request
(each call consumes one response).  On HTTP 401 the token is refreshed and
execution continues at the loop condition, exactly as the continue statement
of the source does in a do-while: when the current cursor is null (the first
page) the condition is falsy and the loop terminates without re-requesting;
otherwise the same cursor is requested again.  On a page response every clip
is ignore-inserted and the cursor advances. -/
def fetchPages : List TokenResp → List PageResp → String → Store → Option String → Nat →
    FetchOut
  | _, [], t, s, cursor, _ => ⟨.error .network, s, t, [cursor]⟩
  | tokens, .unauthorized :: rs, t, s, cursor, inserted =>
    match tokens with
    | [] => ⟨.error .network, s, t, [cursor]⟩
    | none :: _ => ⟨.error .auth, s, t, [cursor]⟩
    | some t2 :: ts =>
      match cursor with
      | none => ⟨.ok inserted, s, t2, [cursor]⟩
      | some c =>
        let o := fetchPages ts rs t2 s (some c) inserted
        ⟨o.result, o.store, o.token, cursor :: o.requests⟩
  | tokens, .page data cur :: rs, t, s, cursor, inserted =>
    let p := insertAll s data
    match cur with
    | none => ⟨.ok (inserted + p.2), p.1, t, [cursor]⟩
    | some c =>
      let o := fetchPages tokens rs t p.1 (some c) (inserted + p.2)
      ⟨o.result, o.store, o.token, cursor :: o.requests⟩

/-- Outcome of one updateClips run. -/
structure UpdateOut where
  result : Except SyncError Nat
  state : SyncState
  requests : List (Option String)

/-- Body of updateClips (the try block): ensure a token, resolve the
broadcaster (throwing when the lookup is empty), then paginate from a null
cursor. -/
def updateClipsBody (env : UpdateEnv) (st : SyncState) : UpdateOut :=
  match ensureToken st.accessToken env.tokens 0 with
  | .error (e, _) => ⟨.error e, st, []⟩
  | .ok (t, ts, _) =>
    let st1 := { st with accessToken := some t }
    match env.broadcasterId with
    | none => ⟨.error .broadcasterNotFound, st1, []⟩
    | some _ =>
      let o := fetchPages ts env.pages t st1.store none 0
      ⟨o.result, { st1 with store := o.store, accessToken := some o.token }, o.requests⟩

/-- updateClips of index.js: set the full-update mutex, run the body, and
clear the mutex in a finally clause on every exit path, success or error. -/
def updateClips (env : UpdateEnv) (st : SyncState) : UpdateOut :=
  let o := updateClipsBody env { st with isUpdatingFull := true }
  ⟨o.result, { o.state with isUpdatingFull := false }, o.requests⟩

/-- Network oracle of one incremental check. -/
structure CheckEnv where
  tokens : List TokenResp
  broadcasterId : Option String
  resps : List ClipsResp
deriving DecidableEq

/-- Outcome of one incremental check: result, final state, ids handed to the
Discord notifier in order, and the number of upstream requests made (token,
user-lookup and clips fetches). -/
structure CheckOut where
  result : Except SyncError Unit
  state : SyncState
  notified : List String
  requests : Nat

/-- The per-clip loop of the windowed checkRecentClips of index.js: for each
fetched clip, first SELECT its id; when absent, INSERT OR IGNORE it and, when
that insert reports a changed row, send it to Discord.  Returns the updated
store and the notified ids in order. -/
def checkClipsWindowed : Store → List ApiClip → Store × List String
  | s, [] => (s, [])
  | s, c :: rest =>
    if existsId s c.id then checkClipsWindowed s rest
    else
      let p := upsertIgnore s (toRow c)
      let q := checkClipsWindowed p.1 rest
      if p.2 then (q.1, c.id :: q.2) else (q.1, q.2)

/-- The per-clip loop of the simple checkRecentClips of the older variant:
INSERT OR IGNORE each fetched clip and send it to Discord exactly when the
insert reports a changed row. -/
def checkClipsSimple : Store → List ApiClip → Store × List String
  | s, [] => (s, [])
  | s, c :: rest =>
    let p := upsertIgnore s (toRow c)
    let q := checkClipsSimple p.1 rest
    if p.2 then (q.1, c.id :: q.2) else (q.1, q.2)

/-- Guards and lookups checkRecentClips of index.js performs before its
clips fetch: skip when the full-update mutex is set; skip when the store is
empty; ensure a token; resolve the broadcaster (throwing when the lookup is
empty).  An error value is an early CheckOut; success carries the remaining
token oracle, the state with the current token, and the request count. -/
def checkPreludeWindowed (tokens : List TokenResp) (bId : Option String)
    (st : SyncState) (reqs : Nat) :
    Except CheckOut (List TokenResp × SyncState × Nat) :=
  if st.isUpdatingFull then .error ⟨.ok (), st, [], reqs⟩
  else if st.store.isEmpty then .error ⟨.ok (), st, [], reqs⟩
  else
    match ensureToken st.accessToken tokens reqs with
    | .error (e, r) => .error ⟨.error e, st, [], r⟩
    | .ok (t, tokens2, r1) =>
      match bId with
      | none =>
        .error ⟨.error .broadcasterNotFound, { st with accessToken := some t }, [], r1 + 1⟩
      | some _ => .ok (tokens2, { st with accessToken := some t }, r1)

/-- checkRecentClips of index.js, one call per clips-endpoint attempt (the
head of the oracle is the response of the fetch that follows the prelude):
run the guards, fetch the recent window, on HTTP 401 refresh the token and
re-invoke the whole function, otherwise run the per-clip loop. -/
def checkWindowedGo : List TokenResp → List ClipsResp → Option String → SyncState → Nat →
    CheckOut
  | tokens, [], bId, st, reqs =>
    (match checkPreludeWindowed tokens bId st reqs with
     | .error out => out
     | .ok (_, st1, r1) => ⟨.error .network, st1, [], r1 + 2⟩)
  | tokens, .unauthorized :: rs, bId, st, reqs =>
    (match checkPreludeWindowed tokens bId st reqs with
     | .error out => out
     | .ok (tokens2, st1, r1) =>
       match tokens2 with
       | [] => ⟨.error .network, st1, [], r1 + 3⟩
       | none :: _ => ⟨.error .auth, st1, [], r1 + 3⟩
       | some t2 :: ts2 =>
         checkWindowedGo ts2 rs bId { st1 with accessToken := some t2 } (r1 + 3))
  | tokens, .result clips :: _, bId, st, reqs =>
    (match checkPreludeWindowed tokens bId st reqs with
     | .error out => out
     | .ok (_, st1, r1) =>
       let p := checkClipsWindowed st1.store clips
       ⟨.ok (), { st1 with store := p.1 }, p.2, r1 + 2⟩)

/-- Entry point of the windowed incremental check. -/
def checkRecentClips (env : CheckEnv) (st : SyncState) : CheckOut :=
  checkWindowedGo env.tokens env.resps env.broadcasterId st 0

/-- The prelude of the older checkRecentClips variant: no mutex check and no
empty-store guard — only token and broadcaster resolution. -/
def checkPreludeSimple (tokens : List TokenResp) (bId : Option String)
    (st : SyncState) (reqs : Nat) :
    Except CheckOut (List TokenResp × SyncState × Nat) :=
  match ensureToken st.accessToken tokens reqs with
  | .error (e, r) => .error ⟨.error e, st, [], r⟩
  | .ok (t, tokens2, r1) =>
    match bId with
    | none =>
      .error ⟨.error .broadcasterNotFound, { st with accessToken := some t }, [], r1 + 1⟩
    | some _ => .ok (tokens2, { st with accessToken := some t }, r1)

/-- checkRecentClips of the older variant: fetch the most recent page and
gate notification solely on the ignore-insert result; on HTTP 401 refresh
the token and re-invoke. -/
def checkSimpleGo : List TokenResp → List ClipsResp → Option String → SyncState → Nat →
    CheckOut
  | tokens, [], bId, st, reqs =>
    (match checkPreludeSimple tokens bId st reqs with
     | .error out => out
     | .ok (_, st1, r1) => ⟨.error .network, st1, [], r1 + 2⟩)
  | tokens, .unauthorized :: rs, bId, st, reqs =>
    (match checkPreludeSimple tokens bId st reqs with
     | .error out => out
     | .ok (tokens2, st1, r1) =>
       match tokens2 with
       | [] => ⟨.error .network, st1, [], r1 + 3⟩
       | none :: _ => ⟨.error .auth, st1, [], r1 + 3⟩
       | some t2 :: ts2 =>
         checkSimpleGo ts2 rs bId { st1 with accessToken := some t2 } (r1 + 3))
  | tokens, .result clips :: _, bId, st, reqs =>
    (match checkPreludeSimple tokens bId st reqs with
     | .error out => out
     | .ok (_, st1, r1) =>
       let p := checkClipsSimple st1.store clips
       ⟨.ok (), { st1 with store := p.1 }, p.2, r1 + 2⟩)

/-- Entry point of the simple incremental check. -/
def checkRecentClipsSimple (env : CheckEnv) (st : SyncState) : CheckOut :=
  checkSimpleGo env.tokens env.resps env.broadcasterId st 0

/-- One scheduled or request-triggered operation over the shared process
state, with its network oracle. -/
inductive Op where
  | fullBackfill (env : UpdateEnv)
  | windowedCheck (env : CheckEnv)
  | simpleCheck (env : CheckEnv)
  | resyncClip (env : ClipEnv)

/-- Effect of one operation on the shared state, with the ids it hands to
the notifier: backfills and single-clip resyncs never notify in the source,
only the two incremental-check variants do. -/
def opStep (st : SyncState) : Op → SyncState × List String
  | .fullBackfill env => ((updateClips env st).state, [])
  | .windowedCheck env =>
    let o := checkRecentClips env st
    (o.state, o.notified)
  | .simpleCheck env =>
    let o := checkRecentClipsSimple env st
    (o.state, o.notified)
  | .resyncClip env => ((syncClipById env st).state, [])

/-- Lifetime of the store: run a sequence of operations from a state,
concatenating the notification traces. -/
def runOps : SyncState → List Op → SyncState × List String
  | st, [] => (st, [])
  | st, op :: rest =>
    let p := opStep st op
    let q := runOps p.1 rest
    (q.1, p.2 ++ q.2)

/-- JSON values, as delivered to the Discord webhook (object keys keep the
insertion order of JSON.stringify). -/
inductive Json where
  | str (s : String)
  | num (n : Int)
  | bool (b : Bool)
  | arr (xs : List Json)
  | obj (kvs : List (String × Json))

/-- First value bound to a key in a JSON object body. -/
def lookupKey : List (String × Json) → String → Option Json
  | [], _ => none
  | (k, v) :: rest, key => if k == key then some v else lookupKey rest key

/-- One entry of an embed fields array. -/
def embedFieldJson (n v : String) (inl : Bool) : Json :=
  .obj [("name", .str n), ("value", .str v), ("inline", .bool inl)]

/-- The three fields both notifier variants always push: creator (with the
Inconnu fallback on an empty name), view count, and duration in seconds. -/
def baseFields (c : ApiClip) : List Json :=
  [embedFieldJson "Créateur" (if c.creator_name = "" then "Inconnu" else c.creator_name) true,
   embedFieldJson "Vues" (toString c.view_count) true,
   embedFieldJson "Durée" (toString c.duration ++ "s") true]

/-- The game field, pushed only when game_name is truthy (nonempty). -/
def gameField (c : ApiClip) : List Json :=
  if c.game_name = "" then [] else [embedFieldJson "Jeu" c.game_name true]

/-- Discord payload built by sendClipToDiscord of index.js: a content line
carrying the clip url, and a single embed holding only a color and the
fields array. -/
def discordPayloadCurrent (c : ApiClip) : Json :=
  .obj [("content", .str ("🎬 **Nouveau clip créé !**\n" ++ c.url)),
        ("embeds", .arr [.obj [("color", .num 9520895),
                               ("fields", .arr (baseFields c ++ gameField c))]])]

/-- Discord payload built by sendClipToDiscord of the older variant: a
content line, and a single embed holding the clip title (with fallback when
empty), the url, a color, a thumbnail, the fields array, the created_at
timestamp, and a footer naming the broadcaster. -/
def discordPayloadLegacy (c : ApiClip) : Json :=
  .obj [("content", .str "🎬 **Nouveau clip créé !**"),
        ("embeds", .arr [.obj
          [("title", .str (if c.title = "" then "Nouveau clip !" else c.title)),
           ("url", .str c.url),
           ("color", .num 9520895),
           ("thumbnail", .obj [("url", .str c.thumbnail_url)]),
           ("fields", .arr (baseFields c ++ gameField c)),
           ("timestamp", .str c.created_at),
           ("footer", .obj
             [("text", .str (c.broadcaster_name ++ " • Twitch")),
              ("icon_url",
               .str "https://static.twitchcdn.net/assets/favicon-32-e29e246c157142c94346.png")])]])]

/-- Character-list prefix test. -/
def charsPrefix : List Char → List Char → Bool
  | [], _ => true
  | _ :: _, [] => false
  | a :: as, b :: bs => a == b && charsPrefix as bs

/-- Character-list infix test, used as the substring check for the footer
naming the broadcaster. -/
def charsInfix (needle : List Char) : List Char → Bool
  | [] => charsPrefix needle []
  | b :: bs => charsPrefix needle (b :: bs) || charsInfix needle bs

/-- A fields array has an entry with the given name. -/
def hasFieldNamed (fs : List Json) (n : String) : Bool :=
  fs.any fun f =>
    match f with
    | .obj kvs =>
      match lookupKey kvs "name" with
      | some (.str m) => m == n
      | _ => false
    | _ => false

/-- Modelled from the spec: the payload contract the C8 claim states — a
text line plus exactly one embed object carrying the clip title, the link,
a color, fields for creator, view count, duration, and game exactly when a
game is present, a timestamp, and a footer whose text names the
broadcaster. -/
def claimC8Payload (c : ApiClip) (j : Json) : Bool :=
  match j with
  | .obj [("content", .str content), ("embeds", .arr [.obj kvs])] =>
    (!(content == "")) &&
    (match lookupKey kvs "title" with
     | some (.str t) => c.title == "" || t == c.title
     | _ => false) &&
    (match lookupKey kvs "url" with
     | some (.str u) => u == c.url
     | _ => false) &&
    (match lookupKey kvs "color" with
     | some (.num _) => true
     | _ => false) &&
    (match lookupKey kvs "fields" with
     | some (.arr fs) =>
       hasFieldNamed fs "Créateur" && hasFieldNamed fs "Vues" &&
       hasFieldNamed fs "Durée" &&
       (hasFieldNamed fs "Jeu" == !(c.game_name == ""))
     | _ => false) &&
    (match lookupKey kvs "timestamp" with
     | some (.str _) => true
     | _ => false) &&
    (match lookupKey kvs "footer" with
     | some (.obj fkvs) =>
       match lookupKey fkvs "text" with
       | some (.str t) => charsInfix c.broadcaster_name.data t.data
       | _ => false
     | _ => false)
  | _ => false

/-- The payload contract the current sendClipToDiscord actually meets: a
content line ending in the clip link, and exactly one embed with a color and
the creator, views and duration fields (plus the game field exactly when a
game is present) — and no title, timestamp or footer key at all. -/
def currentPayloadShape (c : ApiClip) (j : Json) : Bool :=
  match j with
  | .obj [("content", .str content), ("embeds", .arr [.obj kvs])] =>
    (content == "🎬 **Nouveau clip créé !**\n" ++ c.url) &&
    (match lookupKey kvs "color" with
     | some (.num _) => true
     | _ => false) &&
    (match lookupKey kvs "fields" with
     | some (.arr fs) =>
       hasFieldNamed fs "Créateur" && hasFieldNamed fs "Vues" &&
       hasFieldNamed fs "Durée" &&
       (hasFieldNamed fs "Jeu" == !(c.game_name == ""))
     | _ => false) &&
    (lookupKey kvs "title").isNone &&
    (lookupKey kvs "timestamp").isNone &&
    (lookupKey kvs "footer").isNone
  | _ => false

/-- Serial day number of the first day of a month, days since 1970-01-01,
via the standard civil-calendar conversion (this is the MakeDay computation
of ECMAScript dates restricted to day 1; updateClips never needs other
days because MakeDay adds the day offset separately). -/
def daysFromCivilMonthStart (y m : Int) : Int :=
  let y1 := if m ≤ 2 then y - 1 else y
  let era := Int.fdiv y1 400
  let yoe := (y1 - era * 400).toNat
  let mp := (if 2 < m then m - 3 else m + 9).toNat
  let doy := (153 * mp + 2) / 5
  let doe := yoe * 365 + yoe / 4 - yoe / 100 + doy
  era * 146097 + (doe : Int) - 719468

/-- Inverse of the serial day number: the (year, month, day) civil date. -/
def civilFromDays (z : Int) : Int × Nat × Nat :=
  let z1 := z + 719468
  let era := Int.fdiv z1 146097
  let doe := (z1 - era * 146097).toNat
  let yoe := (doe - doe / 1460 + doe / 36524 - doe / 146096) / 365
  let y0 := (yoe : Int) + era * 400
  let doy := doe - (365 * yoe + yoe / 4 - yoe / 100)
  let mp := (5 * doy + 2) / 153
  let d := doy - (153 * mp + 2) / 5 + 1
  let m := if mp < 10 then mp + 3 else mp - 9
  (if m ≤ 2 then y0 + 1 else y0, m, d)

/-- MakeDay of ECMAScript: serial day of new Date(y, mIdx, d) at local
midnight (the container runs in UTC), with month overflow rolling into the
year and the day offset added to the month start. -/
def makeDay (y mIdx d : Int) : Int :=
  let ym := y + Int.fdiv mIdx 12
  let mn := mIdx - 12 * Int.fdiv mIdx 12
  daysFromCivilMonthStart ym (mn + 1) + (d - 1)

/-- Left-pad a natural number with zeros to the given width. -/
def padNum (width : Nat) (n : Nat) : String :=
  let s := toString n
  if s.length < width then String.mk (List.replicate (width - s.length) '0') ++ s
  else s

/-- toISOString of new Date(y, mIdx, d): none when the resulting time value
is outside the valid ECMAScript range (an Invalid Date, whose toISOString
throws), and the Z-suffixed ISO string otherwise, including two-digit years
mapping to 1900+y as the Date constructor does. -/
def toISODate (y mIdx d : Int) : Option String :=
  let y2 := if 0 ≤ y ∧ y ≤ 99 then 1900 + y else y
  let day := makeDay y2 mIdx d
  if day.natAbs ≤ 100000000 then
    let c := civilFromDays day
    let yearStr :=
      if 0 ≤ c.1 ∧ c.1 ≤ 9999 then padNum 4 c.1.toNat
      else if c.1 < 0 then "-" ++ padNum 6 c.1.natAbs
      else "+" ++ padNum 6 c.1.toNat
    some (yearStr ++ "-" ++ padNum 2 c.2.1 ++ "-" ++ padNum 2 c.2.2 ++
          "T00:00:00.000Z")
  else none

/-- The String.prototype.trim of JavaScript: strip leading and trailing
whitespace. -/
def jsTrim (s : String) : String :=
  String.mk (((s.data.dropWhile Char.isWhitespace).reverse.dropWhile
    Char.isWhitespace).reverse)

/-- Helper of splitSlash: accumulate the current field (reversed). -/
def splitSlashGo (acc : List Char) : List Char → List String
  | [] => [String.mk acc.reverse]
  | c :: rest =>
    if c = '/' then String.mk acc.reverse :: splitSlashGo [] rest
    else splitSlashGo (c :: acc) rest

/-- The split on the slash separator of JavaScript: the empty string yields
one empty field, n separators yield n+1 fields. -/
def splitSlash (s : String) : List String := splitSlashGo [] s.data

/-- Value of the digits of a character list, most significant first. -/
def digitsVal : List Char → Nat
  | [] => 0
  | c :: rest => (c.toNat - 48) * 10 ^ rest.length + digitsVal rest

/-- Truncation toward zero of the nonnegative decimal value written
intPart.fracPart times 10 to the exp: the ToInteger result of the parsed
literal, computed exactly over the integers. -/
def truncDecValue (intPart fracPart : List Char) (exp : Int) : Nat :=
  let mant := digitsVal (intPart ++ fracPart)
  let scale := exp - fracPart.length
  if 0 ≤ scale then mant * 10 ^ scale.toNat else mant / 10 ^ (- scale).toNat

/-- Exponent tail of a decimal literal: an empty remainder means no
exponent; otherwise the ECMAScript ExponentPart grammar (e or E, optional
sign, at least one digit) must consume the whole remainder. -/
def parseExpTail (intPart fracPart rest : List Char) : Option Nat :=
  match rest with
  | [] => some (truncDecValue intPart fracPart 0)
  | e :: rest2 =>
    if e = 'e' ∨ e = 'E' then
      let signed : Int × List Char :=
        match rest2 with
        | '+' :: r => (1, r)
        | '-' :: r => (-1, r)
        | r => (1, r)
      if signed.2 ≠ [] ∧ signed.2.all Char.isDigit then
        some (truncDecValue intPart fracPart (signed.1 * digitsVal signed.2))
      else none
    else none

/-- StrUnsignedDecimalLiteral of ECMAScript without the Infinity form:
digits, digits dot optional-digits, or dot digits, each with an optional
exponent, consuming the whole input.  Returns the ToInteger truncation of
the value. -/
def parseDecAbs (l : List Char) : Option Nat :=
  let intPart := l.takeWhile Char.isDigit
  let rest1 := l.drop intPart.length
  match rest1 with
  | '.' :: rest2 =>
    let fracPart := rest2.takeWhile Char.isDigit
    let rest3 := rest2.drop fracPart.length
    if intPart = [] ∧ fracPart = [] then none
    else parseExpTail intPart fracPart rest3
  | _ =>
    if intPart = [] then none else parseExpTail intPart [] rest1

/-- Value of one digit character in the given radix (0-9, a-f, A-F). -/
def digitValIn (radix : Nat) (c : Char) : Option Nat :=
  let v : Option Nat :=
    if '0' ≤ c ∧ c ≤ '9' then some (c.toNat - 48)
    else if 'a' ≤ c ∧ c ≤ 'f' then some (c.toNat - 87)
    else if 'A' ≤ c ∧ c ≤ 'F' then some (c.toNat - 55)
    else none
  match v with
  | some d => if d < radix then some d else none
  | none => none

/-- Helper of radixAbs: left fold over the digit characters. -/
def radixAbsGo (radix : Nat) : List Char → Nat → Option Nat
  | [], acc => some acc
  | c :: rest, acc =>
    match digitValIn radix c with
    | some d => radixAbsGo radix rest (radix * acc + d)
    | none => none

/-- Digit body of a NonDecimalIntegerLiteral of ECMAScript: at least one
digit, all valid in the radix, consuming the whole input. -/
def radixAbs (radix : Nat) (l : List Char) : Option Nat :=
  if l = [] then none else radixAbsGo radix l 0

/-- StrDecimalLiteral of ECMAScript: an optional sign, then Infinity or an
unsigned decimal literal.  None stands for every value the Date constructor
turns into an Invalid Date, so the non-finite Infinity forms land on none
together with NaN (both make the later toISOString throw). -/
def signedDec (l : List Char) : Option Int :=
  let signed : Int × List Char :=
    match l with
    | '-' :: r => (-1, r)
    | '+' :: r => (1, r)
    | r => (1, r)
  if signed.2 = ['I', 'n', 'f', 'i', 'n', 'i', 't', 'y'] then none
  else (parseDecAbs signed.2).map (fun n => signed.1 * n)

/-- The JavaScript Number conversion applied to a date field, followed by
the ToInteger truncation the Date constructor performs: surrounding
whitespace is trimmed, the empty string is 0, and otherwise the
StringNumericLiteral grammar decides — an optionally signed decimal
literal with optional fractional part and exponent (truncated toward
zero), or an unsigned 0x/0X hexadecimal, 0o/0O octal or 0b/0B binary
integer.  None stands for a value the Date constructor turns into an
Invalid Date (NaN, and the non-finite Infinity forms).  Values are
computed exactly; the double rounding of huge literals is not modelled,
which never changes whether a field is NaN. -/
def jsNumber (s : String) : Option Int :=
  let t := jsTrim s
  if t = "" then some 0
  else
    match t.data with
    | '0' :: c :: rest =>
      if c = 'x' ∨ c = 'X' then (radixAbs 16 rest).map Int.ofNat
      else if c = 'o' ∨ c = 'O' then (radixAbs 8 rest).map Int.ofNat
      else if c = 'b' ∨ c = 'B' then (radixAbs 2 rest).map Int.ofNat
      else signedDec t.data
    | _ => signedDec t.data

/-- The ^\d{4}$ regex test of the query endpoint, applied to the raw date
parameter. -/
def fourDigitYear (s : String) : Bool :=
  s.length == 4 && s.data.all Char.isDigit

/-- The date branch of the GET /api/clip handler: split the trimmed
parameter on slashes; three fields are day/month/year, two are month/year,
otherwise a ^\d{4}$ parameter is a year.  An error is a thrown exception:
either toISOString on an Invalid Date (a NaN field or an out-of-range
time value), or binding the still-undefined bounds when no branch
matched. -/
def dateFilterBounds (date : String) : Except Unit (String × String) :=
  match splitSlash (jsTrim date) with
  | [sjj, smm, syyyy] =>
    (match jsNumber sjj, jsNumber smm, jsNumber syyyy with
     | some jj, some mm, some yyyy =>
       (match toISODate yyyy (mm - 1) jj, toISODate yyyy (mm - 1) (jj + 1) with
        | some s, some e => .ok (s, e)
        | _, _ => .error ())
     | _, _, _ => .error ())
  | [smm, syyyy] =>
    (match jsNumber smm, jsNumber syyyy with
     | some mm, some yyyy =>
       (match toISODate yyyy (mm - 1) 1, toISODate yyyy mm 1 with
        | some s, some e => .ok (s, e)
        | _, _ => .error ())
     | _, _ => .error ())
  | _ =>
    if fourDigitYear date then
      (match jsNumber date with
       | some yyyy =>
         (match toISODate yyyy 0 1, toISODate (yyyy + 1) 0 1 with
          | some s, some e => .ok (s, e)
          | _, _ => .error ())
       | none => .error ())
    else .error ()

/-- Byte-order comparison SQLite uses on TEXT values (memcmp; identical to
code-point order on these ASCII timestamps). -/
def textLe : List Char → List Char → Bool
  | [], _ => true
  | _ :: _, [] => false
  | a :: as, b :: bs =>
    if a < b then true else if b < a then false else textLe as bs

/-- The created_at BETWEEN ? AND ? predicate of the generated SQL, both
bounds inclusive. -/
def betweenStr (lo hi s : String) : Bool :=
  textLe lo.data s.data && textLe s.data hi.data

/-- A stored row passes a date filter string: the computed bounds on
success, a thrown error otherwise. -/
def rowMatchesDate (filter : String) (row : Clip) : Except Unit Bool :=
  match dateFilterBounds filter with
  | .ok (s, e) => .ok (betweenStr s e row.created_at)
  | .error u => .error u

/-- Rows of the store matching a date filter string — the candidate set the
ORDER BY RANDOM() LIMIT 1 query draws from. -/
def queryMatching (store : Store) (filter : String) : Except Unit (List Clip) :=
  match dateFilterBounds filter with
  | .ok (s, e) => .ok (store.filter fun r => betweenStr s e r.created_at)
  | .error u => .error u

/-! Shared sample data for the concrete witnesses and counterexamples. -/

/-- Sample upstream clip payload. -/
def apiC1 : ApiClip :=
  ⟨"clipA", "https://clips/clipA", "titre A", "Trackmania", "papy",
   "2024-05-01T10:00:00Z", 12, "viewer1", 30, "https://thumb/a"⟩

/-- Second sample upstream clip payload. -/
def apiC2 : ApiClip :=
  ⟨"clipB", "https://clips/clipB", "titre B", "", "papy",
   "2024-05-02T11:00:00Z", 4, "", 27, ""⟩

/-- Sample stored rows with the created_at values of the date-filter
scenario of the spec. -/
def rowMar01 : Clip := ⟨"cA", "uA", "tA", "gA", "papy", "2024-03-01T10:00:00Z", 5⟩

/-- Second stored row of the date-filter scenario. -/
def rowMar15 : Clip := ⟨"cB", "uB", "tB", "gB", "papy", "2024-03-15T10:00:00Z", 7⟩

/-! Store-level helper lemmas. -/

theorem toRow_id (c : ApiClip) : (toRow c).id = c.id := rfl

/-- Relation between a store before an operation, the store after it, and
the ids the operation notified: every notified id is fresh (absent before,
present after), the notified ids are pairwise distinct, and the operation
never removes ids. -/
def NotifiesFresh (before after : Store) (ns : List String) : Prop :=
  ns.Nodup ∧ (∀ i ∈ ns, i ∉ storeIds before ∧ i ∈ storeIds after) ∧
  storeIds before ⊆ storeIds after

theorem NotifiesFresh.ofSubset {a b : Store} (h : storeIds a ⊆ storeIds b) :
    NotifiesFresh a b [] :=
  ⟨List.nodup_nil, by simp, h⟩

theorem NotifiesFresh.refl (a : Store) : NotifiesFresh a a [] :=
  .ofSubset fun _ h => h

theorem NotifiesFresh.trans_append {a b c : Store} {ns ms : List String}
    (h1 : NotifiesFresh a b ns) (h2 : NotifiesFresh b c ms) :
    NotifiesFresh a c (ns ++ ms) := by
  obtain ⟨hn1, hf1, hs1⟩ := h1
  obtain ⟨hn2, hf2, hs2⟩ := h2
  refine ⟨?_, ?_, fun i hi => hs2 (hs1 hi)⟩
  · rw [List.nodup_append]
    refine ⟨hn1, hn2, fun i hi hj => ?_⟩
    exact (hf2 i hj).1 ((hf1 i hi).2)
  · intro i hi
    rcases List.mem_append.mp hi with hi | hi
    · exact ⟨(hf1 i hi).1, hs2 (hf1 i hi).2⟩
    · exact ⟨fun hmem => (hf2 i hi).1 (hs1 hmem), (hf2 i hi).2⟩

theorem insertAll_subset (l : List ApiClip) : ∀ (s : Store),
    storeIds s ⊆ storeIds (insertAll s l).1 := by
  induction l with
  | nil => intro s; exact fun i h => h
  | cons c rest ih =>
    intro s i hi
    exact ih (upsertIgnore s (toRow c)).1 (upsertIgnore_subset s (toRow c) hi)

theorem upsertReplace_subset (s : Store) (c : Clip) :
    storeIds s ⊆ storeIds (upsertReplace s c) := by
  unfold upsertReplace
  split
  · intro i hi
    have hmap : storeIds (s.map fun r => if r.id == c.id then c else r) =
        storeIds s := by
      unfold storeIds
      rw [List.map_map]
      apply List.map_congr_left
      intro r _
      by_cases h : r.id = c.id
      · simp [h]
      · simp [h]
    rw [hmap]; exact hi
  · intro i hi; rw [storeIds_append]; exact List.mem_append_left _ hi

/-- The windowed per-clip loop notifies exactly the fresh ids, each once. -/
theorem checkClipsWindowed_fresh (l : List ApiClip) : ∀ (s : Store),
    NotifiesFresh s (checkClipsWindowed s l).1 (checkClipsWindowed s l).2 := by
  induction l with
  | nil => intro s; exact .refl s
  | cons c rest ih =>
    intro s
    by_cases he : existsId s c.id
    · simpa [checkClipsWindowed, he] using ih s
    · have he2 : existsId s (toRow c).id = false := by
        rw [toRow_id]; simpa using he
      have hup := upsertIgnore_of_absent s (toRow c) he2
      have hres : checkClipsWindowed s (c :: rest) =
          ((checkClipsWindowed (s ++ [toRow c]) rest).1,
           c.id :: (checkClipsWindowed (s ++ [toRow c]) rest).2) := by
        simp [checkClipsWindowed, he, hup]
      obtain ⟨hn, hf, hs⟩ := ih (s ++ [toRow c])
      have hidmem : c.id ∈ storeIds (s ++ [toRow c]) := by
        rw [storeIds_append]
        exact List.mem_append_right _ (by simp [storeIds, toRow_id])
      have hidout : c.id ∉ storeIds s := fun hmem =>
        he ((existsId_iff s c.id).mpr hmem)
      rw [hres]
      refine ⟨?_, ?_, ?_⟩
      · exact List.Nodup.cons (fun hmem => (hf c.id hmem).1 hidmem) hn
      · intro i hi
        rcases List.mem_cons.mp hi with hi | hi
        · subst hi
          exact ⟨hidout, hs hidmem⟩
        · refine ⟨fun hmem => (hf i hi).1 ?_, (hf i hi).2⟩
          rw [storeIds_append]; exact List.mem_append_left _ hmem
      · intro i hi
        apply hs
        rw [storeIds_append]; exact List.mem_append_left _ hi

/-- The simple per-clip loop notifies exactly the fresh ids, each once. -/
theorem checkClipsSimple_fresh (l : List ApiClip) : ∀ (s : Store),
    NotifiesFresh s (checkClipsSimple s l).1 (checkClipsSimple s l).2 := by
  induction l with
  | nil => intro s; exact .refl s
  | cons c rest ih =>
    intro s
    by_cases he : existsId s c.id
    · have hup := upsertIgnore_of_present s (toRow c) (by rw [toRow_id]; exact he)
      simpa [checkClipsSimple, hup] using ih s
    · have he2 : existsId s (toRow c).id = false := by
        rw [toRow_id]; simpa using he
      have hup := upsertIgnore_of_absent s (toRow c) he2
      have hres : checkClipsSimple s (c :: rest) =
          ((checkClipsSimple (s ++ [toRow c]) rest).1,
           c.id :: (checkClipsSimple (s ++ [toRow c]) rest).2) := by
        simp [checkClipsSimple, hup]
      obtain ⟨hn, hf, hs⟩ := ih (s ++ [toRow c])
      have hidmem : c.id ∈ storeIds (s ++ [toRow c]) := by
        rw [storeIds_append]
        exact List.mem_append_right _ (by simp [storeIds, toRow_id])
      have hidout : c.id ∉ storeIds s := fun hmem =>
        he ((existsId_iff s c.id).mpr hmem)
      rw [hres]
      refine ⟨?_, ?_, ?_⟩
      · exact List.Nodup.cons (fun hmem => (hf c.id hmem).1 hidmem) hn
      · intro i hi
        rcases List.mem_cons.mp hi with hi | hi
        · subst hi
          exact ⟨hidout, hs hidmem⟩
        · refine ⟨fun hmem => (hf i hi).1 ?_, (hf i hi).2⟩
          rw [storeIds_append]; exact List.mem_append_left _ hmem
      · intro i hi
        apply hs
        rw [storeIds_append]; exact List.mem_append_left _ hi

theorem fetchPages_subset (resps : List PageResp) :
    ∀ (tokens : List TokenResp) (t : String) (s : Store) (cursor : Option String)
      (k : Nat), storeIds s ⊆ storeIds (fetchPages tokens resps t s cursor k).store := by
  induction resps with
  | nil => intro tokens t s cursor k; exact fun i h => h
  | cons r rs ih =>
    intro tokens t s cursor k
    cases r with
    | unauthorized =>
      cases tokens with
      | nil => exact fun i h => h
      | cons tr ts =>
        cases tr with
        | none => exact fun i h => h
        | some t2 =>
          cases cursor with
          | none => exact fun i h => h
          | some c =>
            intro i hi
            exact ih ts t2 s (some c) k hi
    | page data cur =>
      cases cur with
      | none =>
        intro i hi
        exact insertAll_subset data s hi
      | some c =>
        intro i hi
        exact ih tokens t (insertAll s data).1 (some c) _ (insertAll_subset data s hi)

theorem updateClips_subset (env : UpdateEnv) (st : SyncState) :
    storeIds st.store ⊆ storeIds (updateClips env st).state.store := by
  unfold updateClips updateClipsBody
  cases h : ensureToken st.accessToken env.tokens 0 with
  | error e => exact fun i hi => hi
  | ok v =>
    cases env.broadcasterId with
    | none => exact fun i hi => hi
    | some b => exact fetchPages_subset env.pages v.2.1 v.1 st.store none 0

theorem syncClipGo_subset (resps : List ClipsResp) :
    ∀ (tokens : List TokenResp) (st : SyncState) (n : Nat),
    storeIds st.store ⊆ storeIds (syncClipGo tokens resps st n).state.store := by
  induction resps with
  | nil => intro tokens st n; simp only [syncClipGo]; exact fun i h => h
  | cons r rs ih =>
    intro tokens st n
    cases r with
    | unauthorized =>
      cases tokens with
      | nil => simp only [syncClipGo]; exact fun i h => h
      | cons tr ts =>
        cases tr with
        | none => simp only [syncClipGo]; exact fun i h => h
        | some t =>
          simp only [syncClipGo]
          exact ih ts { st with accessToken := some t } (n + 1)
    | result d =>
      cases d with
      | nil => simp only [syncClipGo]; exact fun i h => h
      | cons c cs =>
        simp only [syncClipGo]
        exact upsertReplace_subset st.store (toRow c)

theorem syncClipById_subset (env : ClipEnv) (st : SyncState) :
    storeIds st.store ⊆ storeIds (syncClipById env st).state.store := by
  unfold syncClipById
  cases h : ensureToken st.accessToken env.tokens 0 with
  | error e => exact fun i hi => hi
  | ok v =>
    exact syncClipGo_subset env.resps v.2.1 { st with accessToken := some v.1 } 0

/-- The prelude of the windowed check either stops with no notification and
an unchanged store, or hands over a state with the same store. -/
theorem checkPreludeWindowed_cases (tokens : List TokenResp) (bId : Option String)
    (st : SyncState) (reqs : Nat) :
    (∃ out, checkPreludeWindowed tokens bId st reqs = .error out ∧
       out.state.store = st.store ∧ out.notified = []) ∨
    (∃ v, checkPreludeWindowed tokens bId st reqs = .ok v ∧
       v.2.1.store = st.store) := by
  unfold checkPreludeWindowed
  split
  · exact .inl ⟨_, rfl, rfl, rfl⟩
  · split
    · exact .inl ⟨_, rfl, rfl, rfl⟩
    · cases h : ensureToken st.accessToken tokens reqs with
      | error er => exact .inl ⟨_, rfl, rfl, rfl⟩
      | ok v =>
        cases bId with
        | none => exact .inl ⟨_, rfl, rfl, rfl⟩
        | some b => exact .inr ⟨_, rfl, rfl⟩

/-- The prelude of the simple check either stops with no notification and an
unchanged store, or hands over a state with the same store. -/
theorem checkPreludeSimple_cases (tokens : List TokenResp) (bId : Option String)
    (st : SyncState) (reqs : Nat) :
    (∃ out, checkPreludeSimple tokens bId st reqs = .error out ∧
       out.state.store = st.store ∧ out.notified = []) ∨
    (∃ v, checkPreludeSimple tokens bId st reqs = .ok v ∧
       v.2.1.store = st.store) := by
  unfold checkPreludeSimple
  cases h : ensureToken st.accessToken tokens reqs with
  | error er => exact .inl ⟨_, rfl, rfl, rfl⟩
  | ok v =>
    cases bId with
    | none => exact .inl ⟨_, rfl, rfl, rfl⟩
    | some b => exact .inr ⟨_, rfl, rfl⟩

theorem checkWindowedGo_fresh (resps : List ClipsResp) :
    ∀ (tokens : List TokenResp) (bId : Option String) (st : SyncState) (reqs : Nat),
    NotifiesFresh st.store (checkWindowedGo tokens resps bId st reqs).state.store
      (checkWindowedGo tokens resps bId st reqs).notified := by
  induction resps with
  | nil =>
    intro tokens bId st reqs
    simp only [checkWindowedGo]
    rcases checkPreludeWindowed_cases tokens bId st reqs with
      ⟨out, h, hs, hn⟩ | ⟨⟨tokens2, st1, r1⟩, h, hs⟩ <;> rw [h] <;> dsimp only
    · rw [← hs] at *; rw [hn]; exact .ofSubset fun i hi => hi
    · simp only at hs; rw [← hs]; exact .refl st1.store
  | cons r rs ih =>
    intro tokens bId st reqs
    cases r with
    | unauthorized =>
      simp only [checkWindowedGo]
      rcases checkPreludeWindowed_cases tokens bId st reqs with
        ⟨out, h, hs, hn⟩ | ⟨⟨tokens2, st1, r1⟩, h, hs⟩ <;> rw [h] <;> dsimp only
      · rw [← hs] at *; rw [hn]; exact .ofSubset fun i hi => hi
      · simp only at hs
        cases tokens2 with
        | nil => rw [← hs]; exact .refl st1.store
        | cons tr ts =>
          cases tr with
          | none => rw [← hs]; exact .refl st1.store
          | some t2 =>
            rw [← hs]
            exact ih ts bId { st1 with accessToken := some t2 } (r1 + 3)
    | result clips =>
      simp only [checkWindowedGo]
      rcases checkPreludeWindowed_cases tokens bId st reqs with
        ⟨out, h, hs, hn⟩ | ⟨⟨tokens2, st1, r1⟩, h, hs⟩ <;> rw [h] <;> dsimp only
      · rw [← hs] at *; rw [hn]; exact .ofSubset fun i hi => hi
      · simp only at hs
        rw [← hs]; exact checkClipsWindowed_fresh clips st1.store

theorem checkSimpleGo_fresh (resps : List ClipsResp) :
    ∀ (tokens : List TokenResp) (bId : Option String) (st : SyncState) (reqs : Nat),
    NotifiesFresh st.store (checkSimpleGo tokens resps bId st reqs).state.store
      (checkSimpleGo tokens resps bId st reqs).notified := by
  induction resps with
  | nil =>
    intro tokens bId st reqs
    simp only [checkSimpleGo]
    rcases checkPreludeSimple_cases tokens bId st reqs with
      ⟨out, h, hs, hn⟩ | ⟨⟨tokens2, st1, r1⟩, h, hs⟩ <;> rw [h] <;> dsimp only
    · rw [← hs] at *; rw [hn]; exact .ofSubset fun i hi => hi
    · simp only at hs; rw [← hs]; exact .refl st1.store
  | cons r rs ih =>
    intro tokens bId st reqs
    cases r with
    | unauthorized =>
      simp only [checkSimpleGo]
      rcases checkPreludeSimple_cases tokens bId st reqs with
        ⟨out, h, hs, hn⟩ | ⟨⟨tokens2, st1, r1⟩, h, hs⟩ <;> rw [h] <;> dsimp only
      · rw [← hs] at *; rw [hn]; exact .ofSubset fun i hi => hi
      · simp only at hs
        cases tokens2 with
        | nil => rw [← hs]; exact .refl st1.store
        | cons tr ts =>
          cases tr with
          | none => rw [← hs]; exact .refl st1.store
          | some t2 =>
            rw [← hs]
            exact ih ts bId { st1 with accessToken := some t2 } (r1 + 3)
    | result clips =>
      simp only [checkSimpleGo]
      rcases checkPreludeSimple_cases tokens bId st reqs with
        ⟨out, h, hs, hn⟩ | ⟨⟨tokens2, st1, r1⟩, h, hs⟩ <;> rw [h] <;> dsimp only
      · rw [← hs] at *; rw [hn]; exact .ofSubset fun i hi => hi
      · simp only at hs
        rw [← hs]; exact checkClipsSimple_fresh clips st1.store

theorem opStep_fresh (st : SyncState) (op : Op) :
    NotifiesFresh st.store (opStep st op).1.store (opStep st op).2 := by
  cases op with
  | fullBackfill env => exact .ofSubset (updateClips_subset env st)
  | windowedCheck env => exact checkWindowedGo_fresh env.resps env.tokens env.broadcasterId st 0
  | simpleCheck env => exact checkSimpleGo_fresh env.resps env.tokens env.broadcasterId st 0
  | resyncClip env => exact .ofSubset (syncClipById_subset env st)

theorem runOps_fresh (ops : List Op) : ∀ (st : SyncState),
    NotifiesFresh st.store (runOps st ops).1.store (runOps st ops).2 := by
  induction ops with
  | nil => intro st; exact .refl st.store
  | cons op rest ih =>
    intro st
    exact (opStep_fresh st op).trans_append (ih (opStep st op).1)

/-- C1: across any lifetime of the store — any interleaving of full
backfills, windowed and simple incremental checks, and single-clip resyncs,
each with arbitrary network responses, starting from the boot state — the
ids handed to the Discord notifier are pairwise distinct: a clip id is
notified at most once, only by the check whose ignore-insert first durably
wrote it, and never on rediscovery. -/
theorem notified_at_most_once (ops : List Op) :
    ((runOps initState ops).2).Nodup :=
  (runOps_fresh ops initState).1

/-- C3: every terminating run of updateClips ends with the full-backfill
mutex clear — the finally clause clears it on normal completion and on every
thrown error alike — and the body itself runs with the mutex set and never
clears it on any of its own exit paths (so the mutex is set from entry until
the finally). -/
theorem updateClips_mutex_discipline (env : UpdateEnv) (st : SyncState) :
    (updateClips env st).state.isUpdatingFull = false ∧
    (updateClipsBody env { st with isUpdatingFull := true }).state.isUpdatingFull = true := by
  constructor
  · rfl
  · unfold updateClipsBody
    dsimp only
    cases h : ensureToken st.accessToken env.tokens 0 with
    | error e => rfl
    | ok v => cases env.broadcasterId <;> rfl

/-- C4: concrete runs of updateClips showing the unauthorized-retry
behaviour of the pagination loop.  First run: the very first page request
(null cursor) answers 401; after the token refresh the do-while condition
reads the still-null cursor and the loop exits — the run ends ok with zero
insertions and the first page is never re-requested (one single request with
a null cursor was made), contradicting the resume-at-same-cursor intent.
Second run: a 401 on a later page (non-null cursor) is re-requested at the
same cursor and each successful page is counted exactly once. -/
theorem updateClips_first_page_401 :
    (updateClips ⟨[some "tok2"], some "bid", [.unauthorized]⟩
        ⟨[], some "tok1", false⟩ =
      ⟨.ok 0, ⟨[], some "tok2", false⟩, [none]⟩) ∧
    (updateClips ⟨[some "tok2"], some "bid",
        [.page [apiC1] (some "cur1"), .unauthorized, .page [apiC2] none]⟩
        ⟨[], some "tok1", false⟩ =
      ⟨.ok 2, ⟨[toRow apiC1, toRow apiC2], some "tok2", false⟩,
       [none, some "cur1", some "cur1"]⟩) :=
  ⟨rfl, rfl⟩

/-- C6: when the full-backfill mutex is set at entry, the windowed
incremental check returns ok immediately: the state (store included) is
untouched, nothing is notified, and zero upstream requests are made. -/
theorem checkRecentClips_mutex_skip (env : CheckEnv) (st : SyncState)
    (h : st.isUpdatingFull = true) :
    checkRecentClips env st = ⟨.ok (), st, [], 0⟩ := by
  have hp : checkPreludeWindowed env.tokens env.broadcasterId st 0 =
      .error ⟨.ok (), st, [], 0⟩ := by
    unfold checkPreludeWindowed
    rw [if_pos h]
  unfold checkRecentClips
  cases hr : env.resps with
  | nil => simp only [checkWindowedGo, hp]
  | cons r rs =>
    cases r with
    | unauthorized => simp only [checkWindowedGo, hp]
    | result clips => simp only [checkWindowedGo, hp]

/-- C6 witness: a concrete skipped cycle while the mutex is set. -/
theorem checkRecentClips_mutex_skip_witness :
    checkRecentClips ⟨[some "tk1"], some "bid", [.result [apiC1]]⟩
      ⟨[rowMar01], some "tk0", true⟩ =
    ⟨.ok (), ⟨[rowMar01], some "tk0", true⟩, [], 0⟩ :=
  checkRecentClips_mutex_skip _ _ rfl

/-- C9: the date-filter scenario of the spec on a store holding the two
March 2024 clips: the month/year filter 03/2024 matches both rows, the
day/month/year filter 01/03/2024 matches only the first. -/
theorem dateFilter_scenario :
    queryMatching [rowMar01, rowMar15] "03/2024" = .ok [rowMar01, rowMar15] ∧
    queryMatching [rowMar01, rowMar15] "01/03/2024" = .ok [rowMar01] :=
  ⟨rfl, rfl⟩

/-- C8 counterexample: on a concrete clip, the payload the current
sendClipToDiscord delivers does not meet the claimed contract — its embed
carries no title, no timestamp and no footer. -/
theorem currentPayload_misses_claimed_fields :
    claimC8Payload apiC1 (discordPayloadCurrent apiC1) = false := rfl

theorem charsPrefix_self_append (xs ys : List Char) :
    charsPrefix xs (xs ++ ys) = true := by
  induction xs with
  | nil => rfl
  | cons a as ih => simp [charsPrefix, ih]

theorem charsInfix_of_prefix {n h : List Char} (hp : charsPrefix n h = true) :
    charsInfix n h = true := by
  cases h with
  | nil => simpa [charsInfix] using hp
  | cons b bs => simp [charsInfix, hp]

theorem charsInfix_append_self (xs ys : List Char) :
    charsInfix xs (xs ++ ys) = true :=
  charsInfix_of_prefix (charsPrefix_self_append xs ys)

/-- C8 as amended: the older notifier variant meets the claimed payload
contract in full (text line plus one embed with title, link, color, the
creator, views and duration fields, the game field exactly when a game is
present, a timestamp, and a footer naming the broadcaster); the current
variant delivers the text line with the link and one embed with a color and
the same fields array, but no title, timestamp or footer. -/
theorem discordPayload_shapes (c : ApiClip) :
    claimC8Payload c (discordPayloadLegacy c) = true ∧
    currentPayloadShape c (discordPayloadCurrent c) = true := by
  constructor
  · by_cases ht : c.title = "" <;> by_cases hg : c.game_name = "" <;>
      simp [claimC8Payload, discordPayloadLegacy, lookupKey, hasFieldNamed,
            baseFields, gameField, embedFieldJson, ht, hg, charsInfix_append_self]
  · by_cases hg : c.game_name = "" <;>
      simp [currentPayloadShape, discordPayloadCurrent, lookupKey, hasFieldNamed,
            baseFields, gameField, embedFieldJson, hg]

/-- Behaviour of the syncClipById retry loop when the oracle answers n
consecutive 401s (each refresh succeeding) and then a definite response:
the loop keeps retrying through all n refreshes, resolves the definite
response (ClipNotFound on an empty data array without touching the store, a
replace-upsert and the payload otherwise), and has then made n + 1 fetch
attempts beyond the initial count. -/
theorem syncClipGo_resolves (n : Nat) :
    ∀ (ts : List String), n ≤ ts.length →
    ∀ (rs0 : List ClipsResp) (d : List ApiClip) (st : SyncState) (m : Nat),
    ((d = [] →
       (syncClipGo (ts.map some)
          (List.replicate n .unauthorized ++ .result d :: rs0) st m).result
         = .error .clipNotFound ∧
       (syncClipGo (ts.map some)
          (List.replicate n .unauthorized ++ .result d :: rs0) st m).state.store
         = st.store) ∧
     (∀ c cs, d = c :: cs →
       (syncClipGo (ts.map some)
          (List.replicate n .unauthorized ++ .result d :: rs0) st m).result = .ok c ∧
       (syncClipGo (ts.map some)
          (List.replicate n .unauthorized ++ .result d :: rs0) st m).state.store
         = upsertReplace st.store (toRow c)) ∧
     (syncClipGo (ts.map some)
        (List.replicate n .unauthorized ++ .result d :: rs0) st m).attempts
       = m + n + 1) := by
  induction n with
  | zero =>
    intro ts hts rs0 d st m
    cases d with
    | nil =>
      refine ⟨fun _ => ⟨?_, ?_⟩, ?_, ?_⟩
      · simp [syncClipGo]
      · simp [syncClipGo]
      · intro c cs hd; simp at hd
      · simp [syncClipGo]
    | cons c cs =>
      refine ⟨?_, ?_, ?_⟩
      · intro hd; simp at hd
      · intro c2 cs2 hd
        injection hd with h1 h2
        subst h1
        constructor <;> simp [syncClipGo]
      · simp [syncClipGo]
  | succ k ih =>
    intro ts hts rs0 d st m
    cases ts with
    | nil => simp at hts
    | cons t ts2 =>
      have hrep : List.replicate (k + 1) ClipsResp.unauthorized ++ .result d :: rs0
          = .unauthorized :: (List.replicate k ClipsResp.unauthorized ++ .result d :: rs0) := rfl
      rw [hrep]
      simp only [List.map_cons, syncClipGo]
      have hrec := ih ts2 (Nat.le_of_succ_le_succ hts) rs0 d
        { st with accessToken := some t } (m + 1)
      refine ⟨fun hd => ?_, fun c cs hd => ?_, ?_⟩
      · exact ⟨(hrec.1 hd).1, (hrec.1 hd).2⟩
      · exact ⟨(hrec.2.1 c cs hd).1, (hrec.2.1 c cs hd).2⟩
      · rw [hrec.2.2]; omega

/-- C7: when the single-clip lookup ultimately returns an empty result (any
number of refreshed 401s beforehand), syncClipById throws ClipNotFound and
the store is exactly as before; when it returns a clip, the clip is written
via replace-upsert and the fetched payload is returned. -/
theorem syncClipById_lookup (n : Nat) (ts : List String) (hts : n ≤ ts.length)
    (rs0 : List ClipsResp) (d : List ApiClip) (st : SyncState) (t0 : String)
    (hst : st.accessToken = some t0) :
    ((d = [] →
       (syncClipById ⟨ts.map some, List.replicate n .unauthorized ++ .result d :: rs0⟩ st).result
         = .error .clipNotFound ∧
       (syncClipById ⟨ts.map some, List.replicate n .unauthorized ++ .result d :: rs0⟩ st).state.store
         = st.store) ∧
     ∀ c cs, d = c :: cs →
       (syncClipById ⟨ts.map some, List.replicate n .unauthorized ++ .result d :: rs0⟩ st).result
         = .ok c ∧
       (syncClipById ⟨ts.map some, List.replicate n .unauthorized ++ .result d :: rs0⟩ st).state.store
         = upsertReplace st.store (toRow c)) := by
  unfold syncClipById
  rw [show ensureToken st.accessToken (ts.map some) 0 = .ok (t0, ts.map some, 0) by
    rw [hst]; rfl]
  dsimp only
  have hrec := syncClipGo_resolves n ts hts rs0 d { st with accessToken := some t0 } 0
  exact ⟨hrec.1, hrec.2.1⟩

/-- C7 witness: a lookup answering one 401 then an empty result throws
ClipNotFound and leaves the concrete store untouched; one answering a clip
stores it by replace-upsert and returns it. -/
theorem syncClipById_lookup_witness :
    ((syncClipById ⟨[some "tk1"], [.unauthorized, .result []]⟩
        ⟨[rowMar01], some "tk0", false⟩).result = .error .clipNotFound ∧
     (syncClipById ⟨[some "tk1"], [.unauthorized, .result []]⟩
        ⟨[rowMar01], some "tk0", false⟩).state.store = [rowMar01]) ∧
    ((syncClipById ⟨[some "tk1"], [.unauthorized, .result [apiC2]]⟩
        ⟨[rowMar01], some "tk0", false⟩).result = .ok apiC2 ∧
     (syncClipById ⟨[some "tk1"], [.unauthorized, .result [apiC2]]⟩
        ⟨[rowMar01], some "tk0", false⟩).state.store
       = upsertReplace [rowMar01] (toRow apiC2)) :=
  ⟨(syncClipById_lookup 1 ["tk1"] (by decide) [] []
      ⟨[rowMar01], some "tk0", false⟩ "tk0" rfl).1 rfl,
   (syncClipById_lookup 1 ["tk1"] (by decide) [] [apiC2]
      ⟨[rowMar01], some "tk0", false⟩ "tk0" rfl).2 apiC2 [] rfl⟩

/-- C2 counterexample: a single-clip resync whose first fetch and first
retried fetch both answer 401 does not surface a failure — the code
refreshes and retries again, makes a third fetch and succeeds, so the retry
count is not bounded by one. -/
theorem syncClipById_retries_beyond_one :
    (syncClipById ⟨[some "tk1", some "tk2"],
        [.unauthorized, .unauthorized, .result [apiC1]]⟩
        ⟨[], some "tk0", false⟩).result = .ok apiC1 ∧
    (syncClipById ⟨[some "tk1", some "tk2"],
        [.unauthorized, .unauthorized, .result [apiC1]]⟩
        ⟨[], some "tk0", false⟩).attempts = 3 :=
  ⟨rfl, rfl⟩

/-- With the mutex clear, a seeded store, a cached token and a resolvable
broadcaster, the windowed-check prelude hands execution over unchanged. -/
theorem checkPreludeWindowed_cached (tokens : List TokenResp) (b : String)
    (st : SyncState) (t1 : String) (reqs : Nat)
    (hm : st.isUpdatingFull = false) (he : st.store.isEmpty = false)
    (ht : st.accessToken = some t1) :
    checkPreludeWindowed tokens (some b) st reqs =
      .ok (tokens, { st with accessToken := some t1 }, reqs) := by
  unfold checkPreludeWindowed
  rw [if_neg (by simp [hm]), if_neg (by simp [he]), ht]
  rfl

/-- Behaviour of the windowed check when the clips fetch answers n
consecutive 401s (each refresh succeeding) before a definite page: the whole
function is re-invoked after every refresh, the cycle completes ok, and
3n + 2 upstream requests were made beyond the initial count (broadcaster
lookup and clips fetch per attempt, plus one token refresh per 401). -/
theorem checkWindowedGo_retries (n : Nat) :
    ∀ (ts : List String), n ≤ ts.length →
    ∀ (rs0 : List ClipsResp) (clips : List ApiClip) (b : String) (st : SyncState)
      (t1 : String) (reqs : Nat),
    st.isUpdatingFull = false → st.store.isEmpty = false → st.accessToken = some t1 →
    (checkWindowedGo (ts.map some)
        (List.replicate n .unauthorized ++ .result clips :: rs0)
        (some b) st reqs).result = .ok () ∧
    (checkWindowedGo (ts.map some)
        (List.replicate n .unauthorized ++ .result clips :: rs0)
        (some b) st reqs).requests = reqs + 3 * n + 2 := by
  induction n with
  | zero =>
    intro ts hts rs0 clips b st t1 reqs hm he ht
    simp only [List.replicate, List.nil_append, checkWindowedGo,
      checkPreludeWindowed_cached (ts.map some) b st t1 reqs hm he ht]
    refine ⟨?_, ?_⟩
    · simp
    · simp
  | succ k ih =>
    intro ts hts rs0 clips b st t1 reqs hm he ht
    cases ts with
    | nil => simp at hts
    | cons t ts2 =>
      have hrep : List.replicate (k + 1) ClipsResp.unauthorized ++ .result clips :: rs0
          = .unauthorized ::
            (List.replicate k ClipsResp.unauthorized ++ .result clips :: rs0) := rfl
      rw [hrep]
      simp only [List.map_cons, checkWindowedGo,
        checkPreludeWindowed_cached (some t :: ts2.map some) b st t1 reqs hm he ht]
      have hrec := ih ts2 (Nat.le_of_succ_le_succ hts) rs0 clips b
        { st with accessToken := some t } t (reqs + 3) hm he rfl
      refine ⟨hrec.1, ?_⟩
      rw [hrec.2]; omega

/-- C2 as amended: an unauthorized response triggers a token refresh and a
retry of the same request, but the retry count is not bounded by one — both
syncClipById and the windowed checkRecentClips keep refreshing and retrying
for every further 401 and succeed after arbitrarily many, failing only when
a refresh itself fails; n consecutive 401s yield n + 1 fetch attempts (and,
for the check, 3n + 2 upstream requests). -/
theorem retry401_unbounded (n : Nat) (ts : List String) (hts : n ≤ ts.length)
    (rs0 : List ClipsResp) (c : ApiClip) (cs : List ApiClip) (st : SyncState)
    (t0 : String) (hst : st.accessToken = some t0)
    (clips : List ApiClip) (b : String) (st2 : SyncState) (t1 : String)
    (h2t : st2.accessToken = some t1) (h2m : st2.isUpdatingFull = false)
    (h2e : st2.store.isEmpty = false) :
    ((syncClipById ⟨ts.map some,
        List.replicate n .unauthorized ++ .result (c :: cs) :: rs0⟩ st).result = .ok c ∧
     (syncClipById ⟨ts.map some,
        List.replicate n .unauthorized ++ .result (c :: cs) :: rs0⟩ st).attempts = n + 1) ∧
    ((checkRecentClips ⟨ts.map some, some b,
        List.replicate n .unauthorized ++ .result clips :: rs0⟩ st2).result = .ok () ∧
     (checkRecentClips ⟨ts.map some, some b,
        List.replicate n .unauthorized ++ .result clips :: rs0⟩ st2).requests
       = 3 * n + 2) := by
  constructor
  · have hsync : syncClipById ⟨ts.map some,
        List.replicate n .unauthorized ++ .result (c :: cs) :: rs0⟩ st
      = syncClipGo (ts.map some)
          (List.replicate n .unauthorized ++ .result (c :: cs) :: rs0)
          { st with accessToken := some t0 } 0 := by
      unfold syncClipById
      rw [show ensureToken st.accessToken (ts.map some) 0 = .ok (t0, ts.map some, 0) by
        rw [hst]; rfl]
    have hrec := syncClipGo_resolves n ts hts rs0 (c :: cs)
      { st with accessToken := some t0 } 0
    rw [hsync]
    refine ⟨(hrec.2.1 c cs rfl).1, ?_⟩
    rw [hrec.2.2]; omega
  · have hrec := checkWindowedGo_retries n ts hts rs0 clips b st2 t1 0 h2m h2e h2t
    unfold checkRecentClips
    refine ⟨hrec.1, ?_⟩
    rw [hrec.2]
    omega

/-- C2 amended witness: two consecutive 401s are retried through and the
operations succeed on the third attempt. -/
theorem retry401_unbounded_witness :
    (((syncClipById ⟨[some "tk1", some "tk2"],
        [.unauthorized, .unauthorized, .result [apiC2]]⟩
        ⟨[], some "tk0", false⟩).result = .ok apiC2) ∧
     (syncClipById ⟨[some "tk1", some "tk2"],
        [.unauthorized, .unauthorized, .result [apiC2]]⟩
        ⟨[], some "tk0", false⟩).attempts = 3) ∧
    (((checkRecentClips ⟨[some "tk1", some "tk2"], some "bid",
        [.unauthorized, .unauthorized, .result []]⟩
        ⟨[rowMar01], some "tk0", false⟩).result = .ok ()) ∧
     (checkRecentClips ⟨[some "tk1", some "tk2"], some "bid",
        [.unauthorized, .unauthorized, .result []]⟩
        ⟨[rowMar01], some "tk0", false⟩).requests = 8) :=
  retry401_unbounded 2 ["tk1", "tk2"] (by decide) [] apiC2 []
    ⟨[], some "tk0", false⟩ "tk0" rfl [] "bid"
    ⟨[rowMar01], some "tk0", false⟩ "tk0" rfl rfl rfl

end ClipPapy
